import Mathlib

/-!
# Bonding-curve pricing model and trade loop of SniperBotSol

Shallow embedding of `src/bounding_curve.mjs` (class `BondingCurveAccount`),
`src/globalaccount.mjs` (`GlobalAccount.getInitialBuyPrice`), and of the discovery loop, the
buy fan-out and the submission of `src/bot.mjs` and `src/botsell.mjs`.

* JavaScript `BigInt` values are unbounded signed integers: they are `Int` here.
* `BigInt` division `a / b` truncates toward zero and throws a `RangeError`
  when `b` is `0n`: it is `bigIntDiv`, returning in `Except`.
* A `throw` is an `Except.error`; a `return v` is an `Except.ok v`.
-/

namespace SniperBotSol

/-- Exceptions the embedded code can raise. -/
inductive JsError where
  /-- `throw new Error("Curve is complete")` -/
  | curveComplete
  /-- `RangeError: Division by zero` raised by `BigInt` division -/
  | divisionByZero
  /-- `RangeError` raised by reading a byte past the end of a buffer -/
  | outOfRange
  /-- `Error("Invalid bool: ..")` raised by the boolean layout -/
  | invalidBool
  deriving DecidableEq, Repr

deriving instance DecidableEq for Except

/-- The fields of `BondingCurveAccount` (constructor, lines 4-20). -/
structure BondingCurveAccount where
  discriminator : Int
  virtualTokenReserves : Int
  virtualSolReserves : Int
  realTokenReserves : Int
  realSolReserves : Int
  tokenTotalSupply : Int
  complete : Bool
  deriving DecidableEq, Repr

/-- `BigInt` division `a / b`: truncation toward zero, `RangeError` on a zero divisor. -/
def bigIntDiv (a b : Int) : Except JsError Int :=
  if b = 0 then .error .divisionByZero else .ok (Int.tdiv a b)

/-- `getBuyPrice(amount)` (lines 22-38); `amount` is the value after `BigInt(amount)`. -/
def getBuyPrice (c : BondingCurveAccount) (amount : Int) : Except JsError Int :=
  if c.complete then .error .curveComplete
  else if amount ≤ 0 then .ok 0
  else do
    let n := c.virtualSolReserves * c.virtualTokenReserves
    let i := c.virtualSolReserves + amount
    let q ← bigIntDiv n i
    let r := q + 1
    let s := c.virtualTokenReserves - r
    pure (if s < c.realTokenReserves then s else c.realTokenReserves)

/-- `getSellPrice(amount, feeBasisPoints)` (lines 40-53); both arguments are `BigInt`
values. -/
def getSellPrice (c : BondingCurveAccount) (amount feeBasisPoints : Int) : Except JsError Int :=
  if c.complete then .error .curveComplete
  else if amount ≤ 0 then .ok 0
  else do
    let n ← bigIntDiv (amount * c.virtualSolReserves) (c.virtualTokenReserves + amount)
    let a ← bigIntDiv (n * feeBasisPoints) 10000
    pure (n - a)

/-- `getMarketCapSOL()` (lines 55-61); it does not read `complete`. -/
def getMarketCapSOL (c : BondingCurveAccount) : Except JsError Int :=
  if c.virtualTokenReserves = 0 then .ok 0
  else bigIntDiv (c.tokenTotalSupply * c.virtualSolReserves) c.virtualTokenReserves

/-- `getBuyOutPrice(amount, feeBasisPoints)` (lines 75-81); it does not read `complete`. -/
def getBuyOutPrice (c : BondingCurveAccount) (amount feeBasisPoints : Int) : Except JsError Int := do
  let solTokens := if amount < c.realSolReserves then c.realSolReserves else amount
  let q ← bigIntDiv (solTokens * c.virtualSolReserves) (c.virtualTokenReserves - solTokens)
  let totalSellValue := q + 1
  let fee ← bigIntDiv (totalSellValue * feeBasisPoints) 10000
  pure (totalSellValue + fee)

/-- `getFinalMarketCapSOL(feeBasisPoints)` (lines 63-73): `getBuyOutPrice` runs first, the
zero test of `totalVirtualTokens` comes after it. -/
def getFinalMarketCapSOL (c : BondingCurveAccount) (feeBasisPoints : Int) : Except JsError Int := do
  let totalSellValue ← getBuyOutPrice c c.realTokenReserves feeBasisPoints
  let totalVirtualValue := c.virtualSolReserves + totalSellValue
  let totalVirtualTokens := c.virtualTokenReserves - c.realTokenReserves
  if totalVirtualTokens = 0 then pure 0
  else bigIntDiv (c.tokenTotalSupply * totalVirtualValue) totalVirtualTokens

/-- A byte buffer. -/
abbrev Buffer := List (Fin 256)

/-- Little-endian value of a run of bytes. -/
def leValue : List (Fin 256) → Nat
  | [] => 0
  | b :: bs => b.val + 256 * leValue bs

/-- Modelled from the spec: the `u64` layout of the external package `@coral-xyz/borsh`
(imported at line 1, not part of the repository): the unsigned little-endian value of the
eight bytes at `offset`; the slice is cut at the end of the buffer. -/
def u64 (buf : Buffer) (offset : Nat) : Int :=
  (leValue ((buf.drop offset).take 8) : Nat)

/-- Modelled from the spec: the `bool` layout of the external package `@coral-xyz/borsh`
(imported at line 1, not part of the repository): one byte at `offset`, `0` is `false`,
`1` is `true`; reading past the end of the buffer or any other byte value throws. -/
def bool (buf : Buffer) (offset : Nat) : Except JsError Bool :=
  match buf[offset]? with
  | none => .error .outOfRange
  | some b =>
    if b.val = 0 then .ok false
    else if b.val = 1 then .ok true
    else .error .invalidBool

/-- `BondingCurveAccount.fromBuffer(buffer)` (lines 83-105): the seven fields are decoded in
layout order (six `u64` at offsets 0, 8, .. 40 and a `bool` at offset 48) and handed to the
constructor; `BigInt(value.x)` keeps the decoded value. No field is compared with anything. -/
def fromBuffer (buf : Buffer) : Except JsError BondingCurveAccount := do
  let discriminator := u64 buf 0
  let virtualTokenReserves := u64 buf 8
  let virtualSolReserves := u64 buf 16
  let realTokenReserves := u64 buf 24
  let realSolReserves := u64 buf 32
  let tokenTotalSupply := u64 buf 40
  let complete ← bool buf 48
  pure {
    discriminator := discriminator
    virtualTokenReserves := virtualTokenReserves
    virtualSolReserves := virtualSolReserves
    realTokenReserves := realTokenReserves
    realSolReserves := realSolReserves
    tokenTotalSupply := tokenTotalSupply
    complete := complete }

/-- The curve of the concrete buy scenario of the specification. -/
def scenarioCurve : BondingCurveAccount where
  discriminator := 0
  virtualTokenReserves := 1000000000
  virtualSolReserves := 30000000000
  realTokenReserves := 800000000
  realSolReserves := 0
  tokenTotalSupply := 1000000000
  complete := false

/-- The unsigned 64-bit range of the account fields. -/
def InU64 (x : Int) : Prop := 0 ≤ x ∧ x < 2 ^ 64

instance (x : Int) : Decidable (InU64 x) := inferInstanceAs (Decidable (0 ≤ x ∧ x < 2 ^ 64))

/-- The unsigned 128-bit range of an intermediate product. -/
def InU128 (x : Int) : Prop := 0 ≤ x ∧ x < 2 ^ 128

instance (x : Int) : Decidable (InU128 x) := inferInstanceAs (Decidable (0 ≤ x ∧ x < 2 ^ 128))

/-- Forty-nine zero bytes: a buffer of exactly the layout size with discriminator `0`. -/
def zeroBuffer : Buffer := List.replicate 49 0

/-- The buffer `zeroBuffer` with its first byte set to `1`: discriminator `1`. -/
def oneBuffer : Buffer := 1 :: List.replicate 48 0

/-- The scenario curve after it has graduated: same reserves, `complete` set. -/
def completedCurve : BondingCurveAccount := { scenarioCurve with complete := true }


/-- The fields of `GlobalAccount` (`src/globalaccount.mjs`, constructor, lines 6-26); the
constructor passes every integer field through `BigInt(..)`; the two public keys are kept as
their bytes. -/
structure GlobalAccount where
  discriminator : Int
  initialized : Bool
  authority : Buffer
  feeRecipient : Buffer
  initialVirtualTokenReserves : Int
  initialVirtualSolReserves : Int
  initialRealTokenReserves : Int
  tokenTotalSupply : Int
  feeBasisPoints : Int
  deriving DecidableEq, Repr

/-- `GlobalAccount.getInitialBuyPrice(amount)` (`src/globalaccount.mjs`, lines 28-39);
`amount` is the value after `BigInt(amount)`. -/
def getInitialBuyPrice (g : GlobalAccount) (amount : Int) : Except JsError Int :=
  if amount ≤ 0 then .ok 0
  else do
    let n := g.initialVirtualSolReserves * g.initialVirtualTokenReserves
    let i := g.initialVirtualSolReserves + amount
    let q ← bigIntDiv n i
    let r := q + 1
    let s := g.initialVirtualTokenReserves - r
    pure (if s < g.initialRealTokenReserves then s else g.initialRealTokenReserves)


/-- The scenario curve with half a SOL collected: `realSolReserves = 500000000`. -/
def fundedCurve : BondingCurveAccount := { scenarioCurve with realSolReserves := 500000000 }

/-- The curve `fundedCurve` almost sold out: `realTokenReserves = 100`, below
`realSolReserves = 500000000`. -/
def thinCurve : BondingCurveAccount := { fundedCurve with realTokenReserves := 100 }

/-- A curve whose `realSolReserves` exceed its `virtualTokenReserves`; every field is
non-negative and `realTokenReserves < virtualTokenReserves`. -/
def overfundedCurve : BondingCurveAccount where
  discriminator := 0
  virtualTokenReserves := 1000
  virtualSolReserves := 3000
  realTokenReserves := 500
  realSolReserves := 2000
  tokenTotalSupply := 1
  complete := false

/-- A curve whose `realTokenReserves` exceed its `virtualTokenReserves`; every field is
non-negative. -/
def overdrawnCurve : BondingCurveAccount where
  discriminator := 0
  virtualTokenReserves := 1
  virtualSolReserves := 1
  realTokenReserves := 3
  realSolReserves := 0
  tokenTotalSupply := 1
  complete := false

/-- A curve with no virtual asset reserves left; every reserve is non-negative. -/
def drainedCurve : BondingCurveAccount := { scenarioCurve with virtualTokenReserves := 0 }

/-- A curve whose real asset reserves equal its virtual ones:
`virtualTokenReserves - realTokenReserves == 0`. -/
def depletedCurve : BondingCurveAccount where
  discriminator := 0
  virtualTokenReserves := 1000
  virtualSolReserves := 3000
  realTokenReserves := 1000
  realSolReserves := 0
  tokenTotalSupply := 1000
  complete := false


/-! ### The discovery loop and the buy fan-out of `src/bot.mjs`

The network is an input of the model: what `getLatestTokens`,
`ensureAssociatedTokenAccountExists` and each `buyTokens` call answer during one turn of the
`while (true)` loop is given by a `Tick`. The loop is followed over a finite list of ticks.
A trace of the fan-outs issued is kept next to `seenTokens`. -/

/-- A token address, `token.address.toBase58()`. -/
abbrev Address := Nat

/-- The answers of the network during one poll tick. -/
structure Tick where
  /-- `getLatestTokens(..)`: the token list, or `none` when the call throws -/
  latestTokens : Option (List Address)
  /-- `ensureAssociatedTokenAccountExists(.., token)`: `true` when it returns, `false` when it
  throws -/
  ensureOk : Address → Bool
  /-- `buyTokens(token, .., walletKeyPairs[index], ..)`: `true` when the promise resolves,
  `false` when it rejects -/
  buyOk : Address → Nat → Bool

/-- The state of `startSniperBot`: the set `seenTokens`, and the trace of the fan-outs issued
so far, each with the outcome of every wallet's `buyTokens` call in wallet order. -/
structure BotState where
  seenTokens : List Address
  fanOuts : List (Address × List Bool)
  deriving DecidableEq, Repr

/-- `walletKeyPairs.map((walletKeyPair, index) => buyTokens(..))` (lines 320-322): one
`buyTokens` call is started per wallet; the list holds how each of them ends. -/
def buyPromises (walletCount : Nat) (t : Tick) (token : Address) : List Bool :=
  (List.range walletCount).map (t.buyOk token)

/-- `Promise.all(promises)`: fulfilled when every promise is fulfilled, rejected as soon as one
is rejected. -/
def promiseAll (promises : List Bool) : Bool :=
  promises.all id

/-- The `for (const token of tokenAddresses)` loop (lines 315-327) inside the `try` of line
309. An exception leaves the loop for the `catch` of line 329, which only logs: the state
reached so far is what the tick ends with. -/
def processTokens (walletCount : Nat) (t : Tick) : List Address → BotState → BotState
  | [], s => s
  | token :: rest, s =>
    if token ∈ s.seenTokens then processTokens walletCount t rest s
    else if t.ensureOk token = false then s
    else
      let issued : BotState :=
        { s with fanOuts := s.fanOuts ++ [(token, buyPromises walletCount t token)] }
      if promiseAll (buyPromises walletCount t token) = false then issued
      else processTokens walletCount t rest
        { issued with seenTokens := token :: issued.seenTokens }

/-- One turn of the `while (true)` loop (lines 308-334): poll, then the token loop; a poll
that throws is caught and leaves the state unchanged. -/
def pollTick (walletCount : Nat) (s : BotState) (t : Tick) : BotState :=
  match t.latestTokens with
  | none => s
  | some tokenAddresses => processTokens walletCount t tokenAddresses s

/-- `startSniperBot` (lines 305-335) followed over a finite run of ticks, from
`seenTokens = new Set()`. -/
def startSniperBot (walletCount : Nat) (ticks : List Tick) : BotState :=
  ticks.foldl (pollTick walletCount) { seenTokens := [], fanOuts := [] }

/-- How many fan-outs the trace holds for a token. -/
def actedOn (s : BotState) (token : Address) : Nat :=
  (s.fanOuts.map Prod.fst).count token

/-- A tick that returns token `7`, on which the second wallet's buy fails. -/
def failingTick : Tick where
  latestTokens := some [7]
  ensureOk := fun _ => true
  buyOk := fun _ index => decide (index = 0)

/-- A tick that returns tokens `7` and `8`; only the second wallet's buy of `7` fails. -/
def mixedTick : Tick where
  latestTokens := some [7, 8]
  ensureOk := fun _ => true
  buyOk := fun token index => decide (¬ (token = 7 ∧ index = 1))

/-- A tick that returns token `7`, on which every call succeeds. -/
def successTick : Tick where
  latestTokens := some [7]
  ensureOk := fun _ => true
  buyOk := fun _ _ => true


/-! ### The amounts handed to the buy instruction and the handling of a failed submission -/

/-- `LAMPORTS_PER_SOL` of `@solana/web3.js`. -/
def LAMPORTS_PER_SOL : Nat := 1000000000

/-- `lamports = 0.020 * LAMPORTS_PER_SOL` (`bot.mjs` line 183, `botsell.mjs` line 164): the
double-precision product is exactly `20000000`. -/
def lamports : Nat := 20 * LAMPORTS_PER_SOL / 1000

/-- `x.toString()` of a `BN`, and the string a number becomes when `+` joins it to a string:
the decimal digits. -/
def toDecimalString (n : Nat) : List Char := Nat.toDigits 10 n

/-- `new BN(string)`: the number a string of decimal digits denotes. -/
def bnOfString (s : List Char) : Nat :=
  s.foldl (fun acc ch => acc * 10 + (ch.toNat - 48)) 0

/-- `solAmountBN = new BN(solAmount.toString() + 20000)` (`bot.mjs` line 210), the second
argument of `program.instruction.buy`: the left operand of `+` is a string, so `20000` is
appended to it as text. -/
def Bot.solAmountBN (solAmount : Nat) : Nat :=
  bnOfString (toDecimalString solAmount ++ toDecimalString 20000)

/-- `solAmountBN = new BN(solAmount.toString())` (`botsell.mjs` line 198). -/
def BotSell.solAmountBN (solAmount : Nat) : Nat :=
  bnOfString (toDecimalString solAmount)

/-- The `name` of the error a `catch` block receives. -/
inductive ErrorName where
  | transactionExpiredTimeoutError
  | referenceError
  | other
  deriving DecidableEq, Repr

/-- What a piece of the trade path does to the outside: a line written with `console.error`,
a block reference fetched (`getLatestBlockhash`), a transaction submitted
(`sendRawTransaction`, `sendAndConfirmTransaction`). -/
inductive Effect where
  | consoleError (message : String)
  | fetchBlockReference
  | submitTransaction
  deriving DecidableEq, Repr

/-- How a `catch` block ends: the effects it had, in order, and the error it throws
(`none` when it throws nothing). -/
structure Caught where
  effects : List Effect
  thrown : Option ErrorName
  deriving DecidableEq, Repr

/-- The `catch (error)` of the per-account `try` of `sellAllTokens` (`botsell.mjs`, lines
330-338): for an error named `TransactionExpiredTimeoutError` it writes
`Transaction expired, retrying...` and executes `throw error`; for any other error it writes
`Error in sellAllTokens:` and executes `throw error`. -/
def BotSell.sellAllTokensCatch (error : ErrorName) : Caught :=
  if error = .transactionExpiredTimeoutError then
    { effects := [.consoleError "Transaction expired, retrying..."], thrown := some error }
  else
    { effects := [.consoleError "Error in sellAllTokens:"], thrown := some error }

/-- The `catch (error)` of `buyTokens` (`bot.mjs`, lines 246-249): it writes
`Erreur dans buyTokens :` and executes `throw error`. -/
def Bot.buyTokensCatch (error : ErrorName) : Caught :=
  { effects := [.consoleError "Erreur dans buyTokens :"], thrown := some error }

/-- The number of transactions submitted in a run of effects. -/
def submissions (effects : List Effect) : Nat :=
  effects.count .submitTransaction

/-- The number of block references fetched in a run of effects. -/
def blockReferences (effects : List Effect) : Nat :=
  effects.count .fetchBlockReference

/-! ## Shared lemmas -/

/-- On a non-negative dividend and a positive divisor `BigInt` division is the floor. -/
theorem bigIntDiv_of_nonneg {a b : Int} (ha : 0 ≤ a) (hb : 0 < b) :
    bigIntDiv a b = .ok (Int.fdiv a b) := by
  unfold bigIntDiv
  rw [if_neg hb.ne', Int.tdiv_eq_ediv ha hb.le, Int.fdiv_eq_ediv a hb.le]

/-- With a non-zero divisor `BigInt` division returns the truncated quotient. -/
theorem bigIntDiv_of_ne_zero {a b : Int} (hb : b ≠ 0) :
    bigIntDiv a b = .ok (Int.tdiv a b) := by
  unfold bigIntDiv
  rw [if_neg hb]

/-- The floor of a non-negative dividend over a positive divisor is non-negative. -/
theorem fdiv_nonneg_of_nonneg {a b : Int} (ha : 0 ≤ a) (hb : 0 < b) : 0 ≤ Int.fdiv a b := by
  rw [Int.fdiv_eq_ediv a hb.le]
  exact Int.ediv_nonneg ha hb.le

/-- The non-complete, positive-amount branch of `getBuyPrice` on non-negative virtual reserves. -/
theorem getBuyPrice_branch (c : BondingCurveAccount) (amount : Int)
    (hS : 0 ≤ c.virtualSolReserves) (hT : 0 ≤ c.virtualTokenReserves)
    (hc : c.complete = false) (ha : 0 < amount) :
    getBuyPrice c amount =
      .ok (if c.virtualTokenReserves -
              (Int.fdiv (c.virtualSolReserves * c.virtualTokenReserves)
                (c.virtualSolReserves + amount) + 1) < c.realTokenReserves
           then c.virtualTokenReserves -
              (Int.fdiv (c.virtualSolReserves * c.virtualTokenReserves)
                (c.virtualSolReserves + amount) + 1)
           else c.realTokenReserves) := by
  have hi : 0 < c.virtualSolReserves + amount := by omega
  have hn : 0 ≤ c.virtualSolReserves * c.virtualTokenReserves := mul_nonneg hS hT
  unfold getBuyPrice
  rw [if_neg (by simp [hc]), if_neg (not_le.mpr ha)]
  dsimp only
  rw [bigIntDiv_of_nonneg hn hi]
  rfl

/-- The non-complete, positive-amount branch of `getSellPrice` on non-negative virtual
reserves: the gross quote is a floor division, the fee a truncating one. -/
theorem getSellPrice_branch (c : BondingCurveAccount) (amount fee : Int)
    (hS : 0 ≤ c.virtualSolReserves) (hT : 0 ≤ c.virtualTokenReserves)
    (hc : c.complete = false) (ha : 0 < amount) :
    getSellPrice c amount fee =
      .ok (Int.fdiv (amount * c.virtualSolReserves) (c.virtualTokenReserves + amount) -
            Int.tdiv (Int.fdiv (amount * c.virtualSolReserves) (c.virtualTokenReserves + amount)
              * fee) 10000) := by
  have hi : 0 < c.virtualTokenReserves + amount := by omega
  have hn : 0 ≤ amount * c.virtualSolReserves := mul_nonneg ha.le hS
  unfold getSellPrice
  rw [if_neg (by simp [hc]), if_neg (not_le.mpr ha), bigIntDiv_of_nonneg hn hi]
  rfl

/-- The gross sell quote does not decrease when the amount grows. -/
theorem fdiv_gross_mono {vS vT a b : Int} (hS : 0 ≤ vS) (hT : 0 ≤ vT) (ha : 0 < a)
    (hab : a ≤ b) : Int.fdiv (a * vS) (vT + a) ≤ Int.fdiv (b * vS) (vT + b) := by
  have hpa : 0 < vT + a := by omega
  have hpb : 0 < vT + b := by omega
  rw [Int.fdiv_eq_ediv _ hpa.le, Int.fdiv_eq_ediv _ hpb.le]
  apply Int.le_ediv_of_mul_le hpb
  have h1 : a * vS / (vT + a) * (vT + a) ≤ a * vS := Int.ediv_mul_le _ hpa.ne'
  have h2 : a * vS * (vT + b) ≤ b * vS * (vT + a) := by
    have : a * (vS * vT) ≤ b * (vS * vT) := mul_le_mul_of_nonneg_right hab (mul_nonneg hS hT)
    nlinarith
  have h3 : a * vS / (vT + a) * (vT + b) * (vT + a) ≤ b * vS * (vT + a) := by
    calc a * vS / (vT + a) * (vT + b) * (vT + a)
        = (a * vS / (vT + a) * (vT + a)) * (vT + b) := by ring
      _ ≤ a * vS * (vT + b) := mul_le_mul_of_nonneg_right h1 hpb.le
      _ ≤ b * vS * (vT + a) := h2
  exact le_of_mul_le_mul_right h3 hpa

/-- Gross minus fee does not decrease in the gross amount while the fee rate is at most
`10000` basis points. -/
theorem net_mono {g g' f : Int} (hg : 0 ≤ g) (hgg : g ≤ g') (hf : f ≤ 10000) :
    g - Int.tdiv (g * f) 10000 ≤ g' - Int.tdiv (g' * f) 10000 := by
  have hD : (0 : Int) < 10000 := by norm_num
  rcases le_or_lt 0 f with h | h
  · rw [Int.tdiv_eq_ediv (mul_nonneg hg h) hD.le,
      Int.tdiv_eq_ediv (mul_nonneg (hg.trans hgg) h) hD.le]
    have h1 : g' * f ≤ g * f + (g' - g) * 10000 := by nlinarith
    have h2 := Int.ediv_le_ediv hD h1
    rw [Int.add_mul_ediv_right _ _ hD.ne'] at h2
    omega
  · have e1 : Int.tdiv (g * f) 10000 = -((g * (-f)) / 10000) := by
      rw [← Int.tdiv_eq_ediv (mul_nonneg hg (by omega)) hD.le, ← Int.neg_tdiv]
      congr 1; ring
    have e2 : Int.tdiv (g' * f) 10000 = -((g' * (-f)) / 10000) := by
      rw [← Int.tdiv_eq_ediv (mul_nonneg (hg.trans hgg) (by omega)) hD.le, ← Int.neg_tdiv]
      congr 1; ring
    rw [e1, e2]
    have h1 : g * (-f) ≤ g' * (-f) := mul_le_mul_of_nonneg_right hgg (by omega)
    have h2 := Int.ediv_le_ediv hD h1
    omega

/-- A non-positive amount sells for zero on a curve that is not complete. -/
theorem getSellPrice_nonpos (c : BondingCurveAccount) (amount fee : Int)
    (hc : c.complete = false) (ha : amount ≤ 0) : getSellPrice c amount fee = .ok 0 := by
  unfold getSellPrice
  rw [if_neg (by simp [hc]), if_pos ha]

/-- The positive-amount branch of `getBuyPrice` written with `min`. -/
theorem getBuyPrice_pos (c : BondingCurveAccount) (amount : Int)
    (hS : 0 ≤ c.virtualSolReserves) (hT : 0 ≤ c.virtualTokenReserves)
    (hc : c.complete = false) (ha : 0 < amount) :
    getBuyPrice c amount =
      .ok (min (c.virtualTokenReserves -
                  (Int.fdiv (c.virtualSolReserves * c.virtualTokenReserves)
                    (c.virtualSolReserves + amount) + 1))
               c.realTokenReserves) := by
  rw [getBuyPrice_branch c amount hS hT hc ha]
  congr 1
  split_ifs with h
  · exact (min_eq_left h.le).symm
  · exact (min_eq_right (not_lt.mp h)).symm

/-- A non-positive amount buys zero on a curve that is not complete. -/
theorem getBuyPrice_nonpos (c : BondingCurveAccount) (amount : Int)
    (hc : c.complete = false) (ha : amount ≤ 0) : getBuyPrice c amount = .ok 0 := by
  unfold getBuyPrice
  rw [if_neg (by simp [hc]), if_pos ha]

/-- The positive-amount branch of `getSellPrice` for an unsigned fee rate: both divisions
are floor divisions. -/
theorem getSellPrice_pos (c : BondingCurveAccount) (amount fee : Int)
    (hS : 0 ≤ c.virtualSolReserves) (hT : 0 ≤ c.virtualTokenReserves) (hf : 0 ≤ fee)
    (hc : c.complete = false) (ha : 0 < amount) :
    getSellPrice c amount fee =
      .ok (Int.fdiv (amount * c.virtualSolReserves) (c.virtualTokenReserves + amount) -
            Int.fdiv (Int.fdiv (amount * c.virtualSolReserves)
              (c.virtualTokenReserves + amount) * fee) 10000) := by
  have hi : 0 < c.virtualTokenReserves + amount := by omega
  have hg := fdiv_nonneg_of_nonneg (mul_nonneg ha.le hS) hi
  have hD : (0 : Int) < 10000 := by norm_num
  have key := getSellPrice_branch c amount fee hS hT hc ha
  rw [Int.tdiv_eq_ediv (mul_nonneg hg hf) hD.le, ← Int.fdiv_eq_ediv _ hD.le] at key
  exact key

/-- The product of two unsigned 64-bit values fits in 128 bits. -/
theorem inU128_mul {a b : Int} (ha : InU64 a) (hb : InU64 b) : InU128 (a * b) := by
  obtain ⟨ha0, ha1⟩ := ha
  obtain ⟨hb0, hb1⟩ := hb
  refine ⟨mul_nonneg ha0 hb0, ?_⟩
  have h1 : a * b ≤ (2 ^ 64 - 1) * (2 ^ 64 - 1) :=
    mul_le_mul (by omega) (by omega) hb0 (by norm_num)
  have h2 : ((2 : Int) ^ 64 - 1) * (2 ^ 64 - 1) < 2 ^ 128 := by norm_num
  exact lt_of_le_of_lt h1 h2

/-- The gross sell quote is an unsigned 64-bit value when the inputs are. -/
theorem inU64_gross {vS vT a : Int} (hS : InU64 vS) (hT : InU64 vT) (ha : InU64 a) :
    InU64 (Int.fdiv (a * vS) (vT + a)) := by
  obtain ⟨hS0, hS1⟩ := hS
  obtain ⟨hT0, _⟩ := hT
  obtain ⟨ha0, _⟩ := ha
  rcases eq_or_lt_of_le ha0 with h | h
  · subst h
    rw [zero_mul, Int.zero_fdiv]
    exact ⟨le_refl 0, by norm_num⟩
  · have hp : 0 < vT + a := by omega
    refine ⟨fdiv_nonneg_of_nonneg (mul_nonneg ha0 hS0) hp, ?_⟩
    rw [Int.fdiv_eq_ediv _ hp.le]
    have h1 : a * vS ≤ vS * (vT + a) := by nlinarith [mul_nonneg hS0 hT0]
    exact lt_of_le_of_lt (Int.ediv_le_of_le_mul hp h1) hS1

/-- Dropping at least eight bytes forgets an eight-byte header. -/
theorem u64_append_header (d rest : Buffer) (hd : d.length = 8) (k : Nat) :
    u64 (d ++ rest) (8 + k) = u64 rest k := by
  unfold u64
  rw [List.drop_append_eq_append_drop, List.drop_of_length_le (by omega), hd]
  simp

/-- The first field is the little-endian value of an eight-byte header. -/
theorem u64_header (d rest : Buffer) (hd : d.length = 8) : u64 (d ++ rest) 0 = leValue d := by
  unfold u64
  rw [List.drop_zero, ← hd, List.take_left]

/-- The flag byte does not move when the header is replaced. -/
theorem bool_append_header (d rest : Buffer) (hd : d.length = 8) (k : Nat) :
    bool (d ++ rest) (8 + k) = bool rest k := by
  unfold bool
  rw [List.getElem?_append_right (by omega), hd]
  simp

/-- The decoder after an eight-byte header `d`: the remaining fields come from `rest`. -/
theorem fromBuffer_append_header (d rest : Buffer) (hd : d.length = 8) :
    fromBuffer (d ++ rest) =
      (bool rest 40).map fun flag =>
        { discriminator := leValue d
          virtualTokenReserves := u64 rest 0
          virtualSolReserves := u64 rest 8
          realTokenReserves := u64 rest 16
          realSolReserves := u64 rest 24
          tokenTotalSupply := u64 rest 32
          complete := flag } := by
  unfold fromBuffer
  rw [u64_header d rest hd, u64_append_header d rest hd 0, u64_append_header d rest hd 8,
    u64_append_header d rest hd 16, u64_append_header d rest hd 24,
    u64_append_header d rest hd 32, bool_append_header d rest hd 40]
  cases bool rest 40 <;> rfl

/-- The decoder is the flag decoder mapped over the six integer fields. -/
theorem fromBuffer_eq_map (buf : Buffer) :
    fromBuffer buf =
      (bool buf 48).map fun flag =>
        { discriminator := u64 buf 0
          virtualTokenReserves := u64 buf 8
          virtualSolReserves := u64 buf 16
          realTokenReserves := u64 buf 24
          realSolReserves := u64 buf 32
          tokenTotalSupply := u64 buf 40
          complete := flag } := by
  unfold fromBuffer
  cases bool buf 48 <;> rfl

/-- A run of bytes is below `256` to the power of its length. -/
theorem leValue_lt (l : List (Fin 256)) : leValue l < 256 ^ l.length := by
  induction l with
  | nil => simp [leValue]
  | cons b bs ih =>
    have hb := b.isLt
    simp only [leValue, List.length_cons, pow_succ]
    omega

/-- Every `u64` field read from a buffer is in the unsigned 64-bit range. -/
theorem inU64_u64 (buf : Buffer) (offset : Nat) : InU64 (u64 buf offset) := by
  unfold u64 InU64
  have h1 := leValue_lt ((buf.drop offset).take 8)
  have h2 : ((buf.drop offset).take 8).length ≤ 8 := by
    rw [List.length_take]
    exact Nat.min_le_left _ _
  have h3 : 256 ^ ((buf.drop offset).take 8).length ≤ 256 ^ 8 :=
    Nat.pow_le_pow_right (by norm_num) h2
  have h4 : leValue ((buf.drop offset).take 8) < 2 ^ 64 := by
    have : (256 : Nat) ^ 8 = 2 ^ 64 := by norm_num
    omega
  refine ⟨Int.natCast_nonneg _, ?_⟩
  exact_mod_cast h4

/-- Every account the decoder returns has all six integer fields in the unsigned 64-bit
range: the data model's invariant holds on decoded snapshots. -/
theorem fromBuffer_fields_inU64 (buf : Buffer) (c : BondingCurveAccount)
    (h : fromBuffer buf = .ok c) :
    InU64 c.discriminator ∧ InU64 c.virtualTokenReserves ∧ InU64 c.virtualSolReserves ∧
      InU64 c.realTokenReserves ∧ InU64 c.realSolReserves ∧ InU64 c.tokenTotalSupply := by
  rw [fromBuffer_eq_map] at h
  cases hb : bool buf 48 with
  | error err => rw [hb] at h; cases h
  | ok flag =>
    rw [hb] at h
    have hc : c = _ := (Except.ok.inj h).symm
    subst hc
    exact ⟨inU64_u64 buf 0, inU64_u64 buf 8, inU64_u64 buf 16, inU64_u64 buf 24,
      inU64_u64 buf 32, inU64_u64 buf 40⟩


/-- The buy-out cost in terms of the amount `m` that line 76 prices, the larger of `amount`
and `realSolReserves`, when `0 ≤ m < virtualTokenReserves`: both divisions are floor
divisions. -/
theorem getBuyOutPrice_clamped (c : BondingCurveAccount) (amount fee m : Int)
    (hS : 0 ≤ c.virtualSolReserves) (hf : 0 ≤ fee)
    (hm : (if amount < c.realSolReserves then c.realSolReserves else amount) = m)
    (h0 : 0 ≤ m) (hlt : m < c.virtualTokenReserves) :
    getBuyOutPrice c amount fee =
      .ok (Int.fdiv (m * c.virtualSolReserves) (c.virtualTokenReserves - m) + 1 +
            Int.fdiv ((Int.fdiv (m * c.virtualSolReserves)
              (c.virtualTokenReserves - m) + 1) * fee) 10000) := by
  have hd : 0 < c.virtualTokenReserves - m := by omega
  have hq := fdiv_nonneg_of_nonneg (mul_nonneg h0 hS) hd
  have hD : (0 : Int) < 10000 := by norm_num
  unfold getBuyOutPrice
  dsimp only
  rw [hm, bigIntDiv_of_nonneg (mul_nonneg h0 hS) hd]
  have h2 := bigIntDiv_of_nonneg (mul_nonneg (show 0 ≤ Int.fdiv (m * c.virtualSolReserves)
    (c.virtualTokenReserves - m) + 1 by omega) hf) hD
  simp only [bind, Except.bind, h2]
  rfl

/-- The buy-out cost of `getBuyOutPrice_clamped` is at least one. -/
theorem buyOutCost_pos {vS vT amount fee : Int} (hS : 0 ≤ vS) (hf : 0 ≤ fee) (ha : 0 ≤ amount)
    (hlt : amount < vT) :
    0 < Int.fdiv (amount * vS) (vT - amount) + 1 +
          Int.fdiv ((Int.fdiv (amount * vS) (vT - amount) + 1) * fee) 10000 := by
  have hd : 0 < vT - amount := by omega
  have hq := fdiv_nonneg_of_nonneg (mul_nonneg ha hS) hd
  have hfee := fdiv_nonneg_of_nonneg
    (mul_nonneg (show 0 ≤ Int.fdiv (amount * vS) (vT - amount) + 1 by omega) hf)
    (show (0 : Int) < 10000 by norm_num)
  omega


/-- Issuing a fan-out for `token` adds one to its count and leaves every other count. -/
theorem actedOn_issue (seen : List Address) (log : List (Address × List Bool))
    (token a : Address) (outcomes : List Bool) :
    actedOn { seenTokens := seen, fanOuts := log ++ [(token, outcomes)] } a =
      actedOn { seenTokens := seen, fanOuts := log } a + (if token = a then 1 else 0) := by
  unfold actedOn
  simp only [List.map_append, List.map_cons, List.map_nil, List.count_append]
  by_cases h : token = a
  · subst h
    simp
  · simp [List.count_cons, h]

/-- Every wallet's buy succeeding makes `Promise.all` succeed. -/
theorem promiseAll_of_all_ok (walletCount : Nat) (t : Tick) (token : Address)
    (h : ∀ i, i < walletCount → t.buyOk token i = true) :
    promiseAll (buyPromises walletCount t token) = true := by
  unfold promiseAll buyPromises
  rw [List.all_eq_true]
  intro b hb
  obtain ⟨i, hi, rfl⟩ := List.mem_map.mp hb
  exact h i (List.mem_range.mp hi)

/-- A token already in `seenTokens` stays there and no fan-out is issued for it, whatever the
tick returns and however its calls end. -/
theorem processTokens_seen (walletCount : Nat) (t : Tick) (a : Address) :
    ∀ (tokens : List Address) (s : BotState), a ∈ s.seenTokens →
      a ∈ (processTokens walletCount t tokens s).seenTokens ∧
        actedOn (processTokens walletCount t tokens s) a = actedOn s a := by
  intro tokens
  induction tokens with
  | nil => intro s ha; exact ⟨ha, rfl⟩
  | cons token rest ih =>
    intro s ha
    unfold processTokens
    by_cases hseen : token ∈ s.seenTokens
    · rw [if_pos hseen]
      exact ih s ha
    · rw [if_neg hseen]
      have hne : token ≠ a := fun h => hseen (h ▸ ha)
      by_cases hens : t.ensureOk token = false
      · rw [if_pos hens]
        exact ⟨ha, rfl⟩
      · rw [if_neg hens]
        have hcount := actedOn_issue s.seenTokens s.fanOuts token a
          (buyPromises walletCount t token)
        rw [if_neg hne, Nat.add_zero] at hcount
        dsimp only
        by_cases hall : promiseAll (buyPromises walletCount t token) = false
        · rw [if_pos hall]
          exact ⟨ha, hcount⟩
        · rw [if_neg hall]
          have h := ih
            { seenTokens := token :: s.seenTokens
              fanOuts := s.fanOuts ++ [(token, buyPromises walletCount t token)] }
            (List.mem_cons_of_mem _ ha)
          refine ⟨h.1, ?_⟩
          rw [h.2]
          exact hcount

/-- On a tick whose calls all succeed, a token of the poll that is not yet in `seenTokens`
gets exactly one fan-out and ends in `seenTokens`. -/
theorem processTokens_success (walletCount : Nat) (t : Tick) (a : Address) :
    ∀ (tokens : List Address) (s : BotState),
      (∀ token ∈ tokens, t.ensureOk token = true ∧
        ∀ i, i < walletCount → t.buyOk token i = true) →
      a ∈ tokens → a ∉ s.seenTokens →
      a ∈ (processTokens walletCount t tokens s).seenTokens ∧
        actedOn (processTokens walletCount t tokens s) a = actedOn s a + 1 := by
  intro tokens
  induction tokens with
  | nil => intro s _ ha; cases ha
  | cons token rest ih =>
    intro s hok ha hns
    have hhead := hok token (List.mem_cons_self _ _)
    have hrest : ∀ tok ∈ rest, t.ensureOk tok = true ∧
        ∀ i, i < walletCount → t.buyOk tok i = true :=
      fun tok h => hok tok (List.mem_cons_of_mem _ h)
    unfold processTokens
    by_cases hseen : token ∈ s.seenTokens
    · rw [if_pos hseen]
      have hne : a ≠ token := fun h => hns (h ▸ hseen)
      exact ih s hrest ((List.mem_cons.mp ha).resolve_left hne) hns
    · rw [if_neg hseen, if_neg (by simp [hhead.1])]
      dsimp only
      rw [if_neg (by simp [promiseAll_of_all_ok walletCount t token hhead.2])]
      have hcount := actedOn_issue s.seenTokens s.fanOuts token a
        (buyPromises walletCount t token)
      by_cases hta : token = a
      · rw [if_pos hta] at hcount
        have h := processTokens_seen walletCount t a rest
          { seenTokens := token :: s.seenTokens
            fanOuts := s.fanOuts ++ [(token, buyPromises walletCount t token)] }
          (hta ▸ List.mem_cons_self _ _)
        refine ⟨h.1, ?_⟩
        rw [h.2]
        exact hcount
      · rw [if_neg hta, Nat.add_zero] at hcount
        have hmem : a ∈ rest := (List.mem_cons.mp ha).resolve_left (fun h => hta h.symm)
        have h := ih
          { seenTokens := token :: s.seenTokens
            fanOuts := s.fanOuts ++ [(token, buyPromises walletCount t token)] } hrest hmem
          (by
            intro hmem2
            rcases List.mem_cons.mp hmem2 with h1 | h1
            · exact hta h1.symm
            · exact hns h1)
        refine ⟨h.1, ?_⟩
        rw [h.2]
        exact congrArg (fun k => k + 1) hcount

/-! ## Claims -/

/-- C1: on a curve that is not complete (virtual reserves unsigned, as the data model has
them) and for every amount greater than zero, `getBuyPrice(amount)` returns
`min(virtualTokenReserves - (floor(virtualSolReserves * virtualTokenReserves /
(virtualSolReserves + amount)) + 1), realTokenReserves)`. -/
theorem getBuyPrice_eq_min (c : BondingCurveAccount) (amount : Int)
    (hS : 0 ≤ c.virtualSolReserves) (hT : 0 ≤ c.virtualTokenReserves)
    (hc : c.complete = false) (ha : 0 < amount) :
    getBuyPrice c amount =
      .ok (min (c.virtualTokenReserves -
                  (Int.fdiv (c.virtualSolReserves * c.virtualTokenReserves)
                    (c.virtualSolReserves + amount) + 1))
               c.realTokenReserves) :=
  getBuyPrice_pos c amount hS hT hc ha

/-- Witness of C1 on the scenario curve with amount `1000000000`. -/
theorem getBuyPrice_eq_min_witness :
    getBuyPrice scenarioCurve 1000000000 =
      .ok (min (scenarioCurve.virtualTokenReserves -
                  (Int.fdiv (scenarioCurve.virtualSolReserves * scenarioCurve.virtualTokenReserves)
                    (scenarioCurve.virtualSolReserves + 1000000000) + 1))
               scenarioCurve.realTokenReserves) :=
  getBuyPrice_eq_min scenarioCurve 1000000000 (by decide) (by decide) rfl (by decide)

/-- C2: on a curve with non-negative reserves that is not complete and for every amount
greater than zero, `getBuyPrice(amount)` returns a value that is strictly less than
`virtualTokenReserves` and at most `realTokenReserves`. -/
theorem getBuyPrice_lt_virtual_le_real (c : BondingCurveAccount) (amount : Int)
    (hS : 0 ≤ c.virtualSolReserves) (hT : 0 ≤ c.virtualTokenReserves)
    (hc : c.complete = false) (ha : 0 < amount) :
    ∃ v, getBuyPrice c amount = .ok v ∧ v < c.virtualTokenReserves ∧ v ≤ c.realTokenReserves := by
  have hi : 0 < c.virtualSolReserves + amount := by omega
  have hq := fdiv_nonneg_of_nonneg (mul_nonneg hS hT) hi
  refine ⟨_, getBuyPrice_branch c amount hS hT hc ha, ?_, ?_⟩
  · split_ifs with h <;> omega
  · split_ifs with h <;> omega

/-- Witness of C2 on the scenario curve with amount `1000000000`. -/
theorem getBuyPrice_lt_virtual_le_real_witness :
    ∃ v, getBuyPrice scenarioCurve 1000000000 = .ok v ∧
      v < scenarioCurve.virtualTokenReserves ∧ v ≤ scenarioCurve.realTokenReserves :=
  getBuyPrice_lt_virtual_le_real scenarioCurve 1000000000 (by decide) (by decide) rfl (by decide)

/-- C3: on a curve that is not complete (virtual reserves and fee rate unsigned, as the data
model has them) and for every amount greater than zero, `getSellPrice(amount, feeBasisPoints)`
returns `gross - floor(gross * feeBasisPoints / 10000)` with
`gross = floor(amount * virtualSolReserves / (virtualTokenReserves + amount))`; for
amount `500000`, `virtualTokenReserves = 1000000000`, `virtualSolReserves = 30000000000` and
`feeBasisPoints = 100` that is `14992503 - 149925 = 14842578`. -/
theorem getSellPrice_eq_gross_minus_fee (c : BondingCurveAccount) (amount fee : Int)
    (hS : 0 ≤ c.virtualSolReserves) (hT : 0 ≤ c.virtualTokenReserves) (hf : 0 ≤ fee)
    (hc : c.complete = false) (ha : 0 < amount) :
    getSellPrice c amount fee =
        .ok (Int.fdiv (amount * c.virtualSolReserves) (c.virtualTokenReserves + amount) -
              Int.fdiv (Int.fdiv (amount * c.virtualSolReserves)
                (c.virtualTokenReserves + amount) * fee) 10000) ∧
      (amount = 500000 → c.virtualTokenReserves = 1000000000 →
        c.virtualSolReserves = 30000000000 → fee = 100 →
        Int.fdiv (amount * c.virtualSolReserves) (c.virtualTokenReserves + amount) = 14992503 ∧
        getSellPrice c amount fee = .ok (14992503 - 149925) ∧
        getSellPrice c amount fee = .ok 14842578) := by
  have key := getSellPrice_pos c amount fee hS hT hf hc ha
  refine ⟨key, ?_⟩
  intro h1 h2 h3 h4
  rw [key, h1, h2, h3, h4]
  decide

/-- Witness of C3: the concrete sell scenario of the specification. -/
theorem getSellPrice_eq_gross_minus_fee_witness :
    getSellPrice scenarioCurve 500000 100 = .ok 14842578 :=
  ((getSellPrice_eq_gross_minus_fee scenarioCurve 500000 100 (by decide) (by decide)
    (by decide) rfl (by decide)).2 rfl rfl rfl rfl).2.2

/-- C4 as stated fails: with a fee rate of `20000` basis points, on the non-complete curve
with `virtualTokenReserves = 1` and `virtualSolReserves = 10`, selling `1` returns `-5` and
selling `2` returns `-6`. -/
theorem getSellPrice_not_monotone_for_large_fee :
    getSellPrice { scenarioCurve with virtualTokenReserves := 1, virtualSolReserves := 10 }
        1 20000 = .ok (-5) ∧
      getSellPrice { scenarioCurve with virtualTokenReserves := 1, virtualSolReserves := 10 }
        2 20000 = .ok (-6) ∧
      (1 : Int) ≤ 2 ∧ (-6 : Int) < -5 := by
  decide

/-- C4, amended: on a curve with non-negative reserves that is not complete, and for a fixed
fee rate of at most `10000` basis points, `getSellPrice` is monotonically non-decreasing in
the amount: for `a ≤ b` both calls return and the quote for `a` is at most the quote for
`b`. -/
theorem getSellPrice_monotone (c : BondingCurveAccount) (fee a b : Int)
    (hS : 0 ≤ c.virtualSolReserves) (hT : 0 ≤ c.virtualTokenReserves)
    (hc : c.complete = false) (hf : fee ≤ 10000) (hab : a ≤ b) :
    ∃ pa pb, getSellPrice c a fee = .ok pa ∧ getSellPrice c b fee = .ok pb ∧ pa ≤ pb := by
  rcases le_or_lt b 0 with hb | hb
  · exact ⟨0, 0, getSellPrice_nonpos c a fee hc (hab.trans hb),
      getSellPrice_nonpos c b fee hc hb, le_refl 0⟩
  · have hgb := fdiv_nonneg_of_nonneg (mul_nonneg hb.le hS)
      (show 0 < c.virtualTokenReserves + b by omega)
    rcases le_or_lt a 0 with ha | ha
    · refine ⟨0, _, getSellPrice_nonpos c a fee hc ha,
        getSellPrice_branch c b fee hS hT hc hb, ?_⟩
      have h := net_mono (le_refl (0 : Int)) hgb hf
      simpa using h
    · have hga := fdiv_nonneg_of_nonneg (mul_nonneg ha.le hS)
        (show 0 < c.virtualTokenReserves + a by omega)
      exact ⟨_, _, getSellPrice_branch c a fee hS hT hc ha,
        getSellPrice_branch c b fee hS hT hc hb,
        net_mono hga (fdiv_gross_mono hS hT ha hab) hf⟩

/-- Witness of C4 (amended) on the scenario curve with fee `100` and amounts `500000 ≤ 600000`. -/
theorem getSellPrice_monotone_witness :
    ∃ pa pb, getSellPrice scenarioCurve 500000 100 = .ok pa ∧
      getSellPrice scenarioCurve 600000 100 = .ok pb ∧ pa ≤ pb :=
  getSellPrice_monotone scenarioCurve 100 500000 600000 (by decide) (by decide) rfl
    (by decide) (by decide)

/-- C5 as stated fails: on the completed scenario curve `getMarketCapSOL`,
`getBuyOutPrice` and `getFinalMarketCapSOL` return numbers. -/
theorem completed_curve_still_priced :
    getMarketCapSOL completedCurve = .ok 30000000000 ∧
      getBuyOutPrice completedCurve 800000000 100 = .ok 121200000001 ∧
      getFinalMarketCapSOL completedCurve 100 = .ok 756000000005 := by
  decide

/-- C5, amended: on a curve with `complete == true`, for every argument, `getBuyPrice` and
`getSellPrice` fail with the curve-closed error; `getMarketCapSOL`, `getBuyOutPrice` and
`getFinalMarketCapSOL` have no completeness guard and return what they return on the same
reserves with `complete == false`. -/
theorem complete_guard_on_buy_and_sell_only (c : BondingCurveAccount) (amount fee : Int)
    (hc : c.complete = true) :
    getBuyPrice c amount = .error .curveComplete ∧
      getSellPrice c amount fee = .error .curveComplete ∧
      getMarketCapSOL c = getMarketCapSOL { c with complete := false } ∧
      getBuyOutPrice c amount fee = getBuyOutPrice { c with complete := false } amount fee ∧
      getFinalMarketCapSOL c fee = getFinalMarketCapSOL { c with complete := false } fee := by
  refine ⟨?_, ?_, rfl, rfl, rfl⟩
  · unfold getBuyPrice
    rw [if_pos hc]
  · unfold getSellPrice
    rw [if_pos hc]

/-- Witness of C5 (amended) on the completed scenario curve. -/
theorem complete_guard_on_buy_and_sell_only_witness :
    getBuyPrice completedCurve 1000000000 = .error .curveComplete ∧
      getSellPrice completedCurve 1000000000 100 = .error .curveComplete ∧
      getMarketCapSOL completedCurve = getMarketCapSOL { completedCurve with complete := false } ∧
      getBuyOutPrice completedCurve 1000000000 100 =
        getBuyOutPrice { completedCurve with complete := false } 1000000000 100 ∧
      getFinalMarketCapSOL completedCurve 100 =
        getFinalMarketCapSOL { completedCurve with complete := false } 100 :=
  complete_guard_on_buy_and_sell_only completedCurve 1000000000 100 rfl

/-- C6 as stated fails: on the completed scenario curve `getBuyPrice(0)` and
`getSellPrice(0, 100)` throw the curve-closed error instead of returning `0`. -/
theorem zero_amount_on_completed_curve_throws :
    getBuyPrice completedCurve 0 = .error .curveComplete ∧
      getSellPrice completedCurve 0 100 = .error .curveComplete := by
  decide

/-- C6, amended: on every curve that is not complete, `getBuyPrice(0)` returns `0` and, for
every `feeBasisPoints`, `getSellPrice(0, feeBasisPoints)` returns `0`. -/
theorem zero_amount_quotes_zero (c : BondingCurveAccount) (fee : Int)
    (hc : c.complete = false) :
    getBuyPrice c 0 = .ok 0 ∧ getSellPrice c 0 fee = .ok 0 :=
  ⟨getBuyPrice_nonpos c 0 hc (le_refl 0), getSellPrice_nonpos c 0 fee hc (le_refl 0)⟩

/-- Witness of C6 (amended) on the scenario curve. -/
theorem zero_amount_quotes_zero_witness :
    getBuyPrice scenarioCurve 0 = .ok 0 ∧ getSellPrice scenarioCurve 0 100 = .ok 0 :=
  zero_amount_quotes_zero scenarioCurve 100 rfl

/-- C7 as stated fails: on the scenario curve `getBuyPrice(1000000000)` returns `32258064`,
which is `1000000000 - 967741936`, and not `32258063`. -/
theorem scenario_buy_is_not_32258063 :
    getBuyPrice scenarioCurve 1000000000 = .ok 32258064 ∧
      decide (getBuyPrice scenarioCurve 1000000000 = .ok 32258063) = false := by
  decide

/-- C7, amended: on the non-complete curve with `virtualTokenReserves = 1000000000`,
`virtualSolReserves = 30000000000` and `realTokenReserves = 800000000`, in
`getBuyPrice(1000000000)` the quotient `n / i` is `967741935`, so `rawOut` is `967741936`,
and the call returns `min(32258064, 800000000) = 32258064`. -/
theorem scenario_buy_returns_32258064 :
    bigIntDiv (scenarioCurve.virtualSolReserves * scenarioCurve.virtualTokenReserves)
        (scenarioCurve.virtualSolReserves + 1000000000) = .ok 967741935 ∧
      (967741935 : Int) + 1 = 967741936 ∧
      scenarioCurve.virtualTokenReserves - 967741936 = 32258064 ∧
      getBuyPrice scenarioCurve 1000000000 = .ok (min 32258064 800000000) ∧
      getBuyPrice scenarioCurve 1000000000 = .ok 32258064 := by
  decide

/-- C8: on every curve (supply and virtual reserves unsigned, as the data model has them)
`getMarketCapSOL()` returns `0` when `virtualTokenReserves == 0` and otherwise
`floor(tokenTotalSupply * virtualSolReserves / virtualTokenReserves)`; it always returns, so
it never divides by zero. -/
theorem getMarketCapSOL_eq (c : BondingCurveAccount)
    (hP : 0 ≤ c.tokenTotalSupply) (hS : 0 ≤ c.virtualSolReserves)
    (hT : 0 ≤ c.virtualTokenReserves) :
    getMarketCapSOL c =
      .ok (if c.virtualTokenReserves = 0 then 0
           else Int.fdiv (c.tokenTotalSupply * c.virtualSolReserves) c.virtualTokenReserves) := by
  unfold getMarketCapSOL
  split_ifs with h
  · rfl
  · exact bigIntDiv_of_nonneg (mul_nonneg hP hS) (lt_of_le_of_ne hT (Ne.symm h))

/-- Witness of C8 on the scenario curve. -/
theorem getMarketCapSOL_eq_witness :
    getMarketCapSOL scenarioCurve =
      .ok (if scenarioCurve.virtualTokenReserves = 0 then 0
           else Int.fdiv (scenarioCurve.tokenTotalSupply * scenarioCurve.virtualSolReserves)
             scenarioCurve.virtualTokenReserves) :=
  getMarketCapSOL_eq scenarioCurve (by decide) (by decide) (by decide)

/-- C9: on a curve whose virtual reserves are in the unsigned 64-bit range, for every
amount and fee rate in that range, the intermediate products of `getBuyPrice` and
`getSellPrice` (`virtualSolReserves * virtualTokenReserves`, `amount * virtualSolReserves`,
`gross * feeBasisPoints`) are below `2^128`, and both results are the formulas evaluated
over unbounded integers. -/
theorem quotes_fit_in_u128 (c : BondingCurveAccount) (amount fee : Int)
    (hT : InU64 c.virtualTokenReserves) (hS : InU64 c.virtualSolReserves)
    (ha : InU64 amount) (hf : InU64 fee) :
    InU128 (c.virtualSolReserves * c.virtualTokenReserves) ∧
      InU128 (amount * c.virtualSolReserves) ∧
      InU128 (Int.fdiv (amount * c.virtualSolReserves) (c.virtualTokenReserves + amount) * fee) ∧
      getBuyPrice c amount =
        (if c.complete = true then .error .curveComplete
         else if amount = 0 then .ok 0
         else .ok (min (c.virtualTokenReserves -
                      (Int.fdiv (c.virtualSolReserves * c.virtualTokenReserves)
                        (c.virtualSolReserves + amount) + 1))
                    c.realTokenReserves)) ∧
      getSellPrice c amount fee =
        (if c.complete = true then .error .curveComplete
         else if amount = 0 then .ok 0
         else .ok (Int.fdiv (amount * c.virtualSolReserves) (c.virtualTokenReserves + amount) -
                Int.fdiv (Int.fdiv (amount * c.virtualSolReserves)
                  (c.virtualTokenReserves + amount) * fee) 10000)) := by
  refine ⟨inU128_mul hS hT, inU128_mul ha hS, inU128_mul (inU64_gross hS hT ha) hf, ?_, ?_⟩
  · cases hc : c.complete
    · rw [if_neg (by simp)]
      rcases eq_or_lt_of_le ha.1 with h | h
      · rw [← h, if_pos rfl]
        exact getBuyPrice_nonpos c 0 hc (le_refl 0)
      · rw [if_neg h.ne']
        exact getBuyPrice_pos c amount hS.1 hT.1 hc h
    · rw [if_pos rfl]
      unfold getBuyPrice
      rw [if_pos hc]
  · cases hc : c.complete
    · rw [if_neg (by simp)]
      rcases eq_or_lt_of_le ha.1 with h | h
      · rw [← h, if_pos rfl]
        exact getSellPrice_nonpos c 0 fee hc (le_refl 0)
      · rw [if_neg h.ne']
        exact getSellPrice_pos c amount fee hS.1 hT.1 hf.1 hc h
    · rw [if_pos rfl]
      unfold getSellPrice
      rw [if_pos hc]

/-- Witness of C9 on the scenario curve with amount `500000` and fee `100`. -/
theorem quotes_fit_in_u128_witness :
    InU128 (scenarioCurve.virtualSolReserves * scenarioCurve.virtualTokenReserves) ∧
      getBuyPrice scenarioCurve 500000 = .ok 16666 ∧
      getSellPrice scenarioCurve 500000 100 = .ok 14842578 := by
  have h := quotes_fit_in_u128 scenarioCurve 500000 100 (by decide) (by decide) (by decide)
    (by decide)
  refine ⟨h.1, ?_, ?_⟩
  · rw [h.2.2.2.1]; decide
  · rw [h.2.2.2.2]; decide

/-- C10 as stated fails: two buffers of 49 bytes whose leading eight bytes encode the
discriminators `0` and `1` both decode to a curve account, so no expected tag rejects
every other discriminator. -/
theorem fromBuffer_accepts_any_discriminator :
    fromBuffer zeroBuffer = .ok {
        discriminator := 0, virtualTokenReserves := 0, virtualSolReserves := 0,
        realTokenReserves := 0, realSolReserves := 0, tokenTotalSupply := 0,
        complete := false } ∧
      fromBuffer oneBuffer = .ok {
        discriminator := 1, virtualTokenReserves := 0, virtualSolReserves := 0,
        realTokenReserves := 0, realSolReserves := 0, tokenTotalSupply := 0,
        complete := false } := by
  decide

/-- C10, amended: `fromBuffer` fails for every buffer shorter than the 49-byte layout; the
leading eight bytes are not compared with any expected tag: a buffer whose byte 48 is `0` or
`1` decodes whatever its leading bytes are, the account returned carries their little-endian
value as its discriminator, and replacing them by any other eight bytes `d'` changes nothing
but that field. -/
theorem fromBuffer_checks_length_only (buf d' : Buffer) (hd' : d'.length = 8) :
    (buf.length < 49 → fromBuffer buf = .error .outOfRange) ∧
      (∀ b : Fin 256, buf[48]? = some b → b.val ≤ 1 → ∃ c, fromBuffer buf = .ok c) ∧
      (∀ c, fromBuffer buf = .ok c →
        c.discriminator = u64 buf 0 ∧
        fromBuffer (d' ++ buf.drop 8) = .ok { c with discriminator := leValue d' }) := by
  have hshort : buf.length < 49 → fromBuffer buf = .error .outOfRange := by
    intro hlen
    have h48 : buf[48]? = none := by
      rw [List.getElem?_eq_none_iff]
      omega
    rw [fromBuffer_eq_map]
    unfold bool
    rw [h48]
    rfl
  refine ⟨hshort, ?_, ?_⟩
  · intro b hb hle
    rw [fromBuffer_eq_map]
    unfold bool
    rw [hb]
    dsimp only
    rcases Nat.le_one_iff_eq_zero_or_eq_one.mp hle with h | h
    · rw [if_pos h]; exact ⟨_, rfl⟩
    · rw [if_neg (by omega), if_pos h]; exact ⟨_, rfl⟩
  · intro c hcd
    have hlen : 49 ≤ buf.length := by
      by_contra hlt
      rw [hshort (not_le.mp hlt)] at hcd
      cases hcd
    have h8 : (buf.take 8).length = 8 := by
      rw [List.length_take]
      omega
    have e := fromBuffer_append_header (buf.take 8) (buf.drop 8) h8
    rw [List.take_append_drop] at e
    rw [e] at hcd
    rw [fromBuffer_append_header d' (buf.drop 8) hd']
    cases hb : bool (buf.drop 8) 40 with
    | error err => rw [hb] at hcd; cases hcd
    | ok flag =>
      rw [hb] at hcd
      have hc : c = _ := (Except.ok.inj hcd).symm
      subst hc
      exact ⟨by simp [u64], rfl⟩

/-- Witness of C10 (amended): the zero buffer, and the header with first byte `1`. -/
theorem fromBuffer_checks_length_only_witness :
    (∃ c, fromBuffer zeroBuffer = .ok c) ∧
      (∀ c, fromBuffer zeroBuffer = .ok c →
        c.discriminator = u64 zeroBuffer 0 ∧
        fromBuffer ((1 :: List.replicate 7 0) ++ zeroBuffer.drop 8) =
          .ok { c with discriminator := leValue (1 :: List.replicate 7 0) }) :=
  ⟨(fromBuffer_checks_length_only zeroBuffer (1 :: List.replicate 7 0) rfl).2.1 0
      (by decide) (by decide),
    (fromBuffer_checks_length_only zeroBuffer (1 :: List.replicate 7 0) rfl).2.2⟩


/-- C18: for every `GlobalAccount` `g` and every amount, `g.getInitialBuyPrice(amount)` is
`getBuyPrice(amount)` on the non-complete `BondingCurveAccount` whose `virtualTokenReserves`,
`virtualSolReserves` and `realTokenReserves` are `g`'s `initialVirtualTokenReserves`,
`initialVirtualSolReserves` and `initialRealTokenReserves`, whatever its other fields are:
same value on success, same exception on failure. -/
theorem getInitialBuyPrice_eq_getBuyPrice (g : GlobalAccount) (amount : Int)
    (c : BondingCurveAccount) :
    getInitialBuyPrice g amount =
      getBuyPrice { c with
        virtualTokenReserves := g.initialVirtualTokenReserves
        virtualSolReserves := g.initialVirtualSolReserves
        realTokenReserves := g.initialRealTokenReserves
        complete := false } amount := by
  unfold getInitialBuyPrice getBuyPrice
  rw [if_neg (show ¬ (false = true) by decide)]


/-- C15 as stated fails. On the scenario curve with `realSolReserves = 500000000`,
`getBuyOutPrice(1000, 100)` returns `30300000001`, the cost of `500000000`, while the
formula of the claim gives `c = 30001` and `c + floor(c * 100 / 10000) = 30301`. On the
curve with `realSolReserves = 2000 > virtualTokenReserves = 1000`, `getBuyOutPrice(500, 0)`
returns `-5999` and `getFinalMarketCapSOL(0)` returns `-5`, while the floor of the claim is
`-6`. On the curve with `realTokenReserves = 3 > virtualTokenReserves = 1`,
`getBuyOutPrice(3, 0)` returns `0` and `getFinalMarketCapSOL(0)` returns `0`, while the floor
of the claim is `-1`. -/
theorem getBuyOutPrice_clamps_to_realSolReserves :
    getBuyOutPrice fundedCurve 1000 100 = .ok 30300000001 ∧
      Int.fdiv (1000 * fundedCurve.virtualSolReserves)
        (fundedCurve.virtualTokenReserves - 1000) + 1 = 30001 ∧
      (30001 : Int) + Int.fdiv (30001 * 100) 10000 = 30301 ∧
      getBuyOutPrice overfundedCurve overfundedCurve.realTokenReserves 0 = .ok (-5999) ∧
      getFinalMarketCapSOL overfundedCurve 0 = .ok (-5) ∧
      Int.fdiv (overfundedCurve.tokenTotalSupply * (overfundedCurve.virtualSolReserves + -5999))
        (overfundedCurve.virtualTokenReserves - overfundedCurve.realTokenReserves) = -6 ∧
      getBuyOutPrice overdrawnCurve overdrawnCurve.realTokenReserves 0 = .ok 0 ∧
      getFinalMarketCapSOL overdrawnCurve 0 = .ok 0 ∧
      Int.fdiv (overdrawnCurve.tokenTotalSupply * (overdrawnCurve.virtualSolReserves + 0))
        (overdrawnCurve.virtualTokenReserves - overdrawnCurve.realTokenReserves) = -1 := by
  decide

/-- C15, amended: on a curve with unsigned reserves, supply and fee rate, (1) for every amount
with `0 < amount < virtualTokenReserves` that is not below `realSolReserves`,
`getBuyOutPrice(amount, feeBasisPoints)` returns `c + floor(c * feeBasisPoints / 10000)` with
`c = floor(amount * virtualSolReserves / (virtualTokenReserves - amount)) + 1`; (2) for every
amount below `realSolReserves < virtualTokenReserves` it returns the same expression with
`realSolReserves` in place of `amount`; (3) when `realTokenReserves` and `realSolReserves` are
both below `virtualTokenReserves`, `getBuyOutPrice(realTokenReserves, fee)` returns a value
`p` and `getFinalMarketCapSOL(fee)` returns
`floor(tokenTotalSupply * (virtualSolReserves + p) / (virtualTokenReserves - realTokenReserves))`. -/
theorem getBuyOutPrice_formula (c : BondingCurveAccount) (amount fee : Int)
    (hS : 0 ≤ c.virtualSolReserves) (hR : 0 ≤ c.realSolReserves)
    (hP : 0 ≤ c.tokenTotalSupply) (hf : 0 ≤ fee) :
    (0 < amount → amount < c.virtualTokenReserves → c.realSolReserves ≤ amount →
        getBuyOutPrice c amount fee =
          .ok (Int.fdiv (amount * c.virtualSolReserves) (c.virtualTokenReserves - amount) + 1 +
                Int.fdiv ((Int.fdiv (amount * c.virtualSolReserves)
                  (c.virtualTokenReserves - amount) + 1) * fee) 10000)) ∧
      (amount < c.realSolReserves → c.realSolReserves < c.virtualTokenReserves →
        getBuyOutPrice c amount fee =
          .ok (Int.fdiv (c.realSolReserves * c.virtualSolReserves)
                  (c.virtualTokenReserves - c.realSolReserves) + 1 +
                Int.fdiv ((Int.fdiv (c.realSolReserves * c.virtualSolReserves)
                  (c.virtualTokenReserves - c.realSolReserves) + 1) * fee) 10000)) ∧
      (c.realTokenReserves < c.virtualTokenReserves →
        c.realSolReserves < c.virtualTokenReserves →
        ∃ p, getBuyOutPrice c c.realTokenReserves fee = .ok p ∧
          getFinalMarketCapSOL c fee =
            .ok (Int.fdiv (c.tokenTotalSupply * (c.virtualSolReserves + p))
                  (c.virtualTokenReserves - c.realTokenReserves))) := by
  refine ⟨?_, ?_, ?_⟩
  · intro ha hlt hr
    exact getBuyOutPrice_clamped c amount fee amount hS hf (if_neg (not_lt.mpr hr)) ha.le hlt
  · intro hlt hRlt
    exact getBuyOutPrice_clamped c amount fee c.realSolReserves hS hf (if_pos hlt) hR hRlt
  · intro hTlt hRlt
    have hm0 : 0 ≤ (if c.realTokenReserves < c.realSolReserves then c.realSolReserves
        else c.realTokenReserves) := by
      split_ifs with h <;> omega
    have hmlt : (if c.realTokenReserves < c.realSolReserves then c.realSolReserves
        else c.realTokenReserves) < c.virtualTokenReserves := by
      split_ifs with h <;> omega
    have hp := getBuyOutPrice_clamped c c.realTokenReserves fee _ hS hf rfl hm0 hmlt
    have hpos := @buyOutCost_pos _ _ _ fee hS hf hm0 hmlt
    refine ⟨_, hp, ?_⟩
    have hd : 0 < c.virtualTokenReserves - c.realTokenReserves := by omega
    unfold getFinalMarketCapSOL
    rw [hp]
    show (if c.virtualTokenReserves - c.realTokenReserves = 0 then pure 0
      else bigIntDiv _ _) = _
    rw [if_neg hd.ne']
    exact bigIntDiv_of_nonneg (mul_nonneg hP (by omega)) hd

/-- Witness of C15 (amended): buying out `800000000` at fee `100` on the scenario curve, the
clamp on the curve with `realSolReserves = 500000000`, and the final market cap of that curve
with `realTokenReserves = 100`, below `realSolReserves`. -/
theorem getBuyOutPrice_formula_witness :
    getBuyOutPrice scenarioCurve 800000000 100 = .ok 121200000001 ∧
      getBuyOutPrice fundedCurve 1000 100 =
        .ok (Int.fdiv (fundedCurve.realSolReserves * fundedCurve.virtualSolReserves)
                (fundedCurve.virtualTokenReserves - fundedCurve.realSolReserves) + 1 +
              Int.fdiv ((Int.fdiv (fundedCurve.realSolReserves * fundedCurve.virtualSolReserves)
                (fundedCurve.virtualTokenReserves - fundedCurve.realSolReserves) + 1) * 100)
                10000) ∧
      getFinalMarketCapSOL thinCurve 100 = .ok 60300006031 := by
  have h1 := getBuyOutPrice_formula scenarioCurve 800000000 100 (by decide) (by decide)
    (by decide) (by decide)
  have h2 := getBuyOutPrice_formula fundedCurve 1000 100 (by decide) (by decide)
    (by decide) (by decide)
  have h3 := getBuyOutPrice_formula thinCurve 1000 100 (by decide) (by decide)
    (by decide) (by decide)
  obtain ⟨p, hp, hfin⟩ := h3.2.2 (by decide) (by decide)
  have hv : getBuyOutPrice thinCurve thinCurve.realTokenReserves 100 = .ok 30300000001 := by
    decide
  rw [hv] at hp
  have hpv : p = 30300000001 := (Except.ok.inj hp).symm
  subst hpv
  refine ⟨?_, h2.2.1 (by decide) (by decide), ?_⟩
  · rw [h1.1 (by decide) (by decide) (by decide)]
    decide
  · rw [hfin]
    decide

/-- C16 as stated fails: on the non-complete curve with non-negative reserves and
`virtualTokenReserves = 0`, `getBuyPrice(5)` returns `-1`. -/
theorem getBuyPrice_negative_on_drained_curve :
    getBuyPrice drainedCurve 5 = .ok (-1) ∧
      0 ≤ drainedCurve.virtualTokenReserves ∧ 0 ≤ drainedCurve.virtualSolReserves ∧
      0 ≤ drainedCurve.realTokenReserves ∧ drainedCurve.complete = false := by
  decide

/-- C16, amended: on a non-complete curve with non-negative reserves and
`virtualTokenReserves > 0`, for every amount greater than zero, `getBuyPrice(amount)` returns
a non-negative value: `virtualTokenReserves - rawOut` does not go below zero. -/
theorem getBuyPrice_nonneg (c : BondingCurveAccount) (amount : Int)
    (hS : 0 ≤ c.virtualSolReserves) (hT : 0 < c.virtualTokenReserves)
    (hR : 0 ≤ c.realTokenReserves) (hc : c.complete = false) (ha : 0 < amount) :
    ∃ v, getBuyPrice c amount = .ok v ∧ 0 ≤ v ∧
      0 ≤ c.virtualTokenReserves -
        (Int.fdiv (c.virtualSolReserves * c.virtualTokenReserves)
          (c.virtualSolReserves + amount) + 1) := by
  have hi : 0 < c.virtualSolReserves + amount := by omega
  have hq : Int.fdiv (c.virtualSolReserves * c.virtualTokenReserves)
      (c.virtualSolReserves + amount) < c.virtualTokenReserves := by
    rw [Int.fdiv_eq_ediv _ hi.le]
    apply Int.ediv_lt_of_lt_mul hi
    nlinarith [mul_pos hT ha]
  refine ⟨_, getBuyPrice_branch c amount hS hT.le hc ha, ?_, by omega⟩
  split_ifs with h <;> omega

/-- Witness of C16 (amended) on the scenario curve with amount `1000000000`. -/
theorem getBuyPrice_nonneg_witness :
    ∃ v, getBuyPrice scenarioCurve 1000000000 = .ok v ∧ 0 ≤ v ∧
      0 ≤ scenarioCurve.virtualTokenReserves -
        (Int.fdiv (scenarioCurve.virtualSolReserves * scenarioCurve.virtualTokenReserves)
          (scenarioCurve.virtualSolReserves + 1000000000) + 1) :=
  getBuyPrice_nonneg scenarioCurve 1000000000 (by decide) (by decide) (by decide) rfl
    (by decide)

/-- C17, the code at the failing input: on the curve with
`virtualTokenReserves = realTokenReserves = 1000` and `realSolReserves = 0`,
`getBuyOutPrice(realTokenReserves, 100)` divides by `virtualTokenReserves - realTokenReserves`
before the zero test of line 68 is reached, so `getFinalMarketCapSOL(100)` throws the
division-by-zero error instead of returning `0`. -/
theorem getFinalMarketCapSOL_divides_by_zero :
    depletedCurve.virtualTokenReserves - depletedCurve.realTokenReserves = 0 ∧
      getBuyOutPrice depletedCurve depletedCurve.realTokenReserves 100 =
        .error .divisionByZero ∧
      getFinalMarketCapSOL depletedCurve 100 = .error .divisionByZero := by
  decide


/-- C11 as stated fails: with two wallets, when token `7` is returned on two consecutive
ticks and the second wallet's buy fails each time, the token is never put in `seenTokens`
and the fan-out is issued on both ticks. -/
theorem failed_fanOut_is_repeated :
    startSniperBot 2 [failingTick, failingTick] =
        { seenTokens := [], fanOuts := [(7, [true, false]), (7, [true, false])] } ∧
      actedOn (startSniperBot 2 [failingTick, failingTick]) 7 = 2 := by
  decide

/-- C11, amended: in `startSniperBot` the address is inserted into the seen set after its
fan-out has completed without error. When every call of the first tick succeeds, an address
the tick returns that was not seen before is acted on once and is in the seen set, and the
next tick, whatever it returns and however its calls end, does not act on it again: exactly
one fan-out over the two ticks. When the fan-out fails, the address is acted on but not
inserted. -/
theorem seen_after_successful_fanOut (walletCount : Nat) (s : BotState) (t1 t2 : Tick)
    (tokens : List Address) (a : Address)
    (hpoll : t1.latestTokens = some tokens) (hmem : a ∈ tokens) (hnew : a ∉ s.seenTokens)
    (hok : ∀ token ∈ tokens, t1.ensureOk token = true ∧
      ∀ i, i < walletCount → t1.buyOk token i = true) :
    a ∈ (pollTick walletCount s t1).seenTokens ∧
      actedOn (pollTick walletCount s t1) a = actedOn s a + 1 ∧
      actedOn (pollTick walletCount (pollTick walletCount s t1) t2) a = actedOn s a + 1 ∧
      (∀ t : Tick, t.latestTokens = some [a] → t.ensureOk a = true →
        promiseAll (buyPromises walletCount t a) = false →
        a ∉ (pollTick walletCount s t).seenTokens ∧
          actedOn (pollTick walletCount s t) a = actedOn s a + 1) := by
  have h1 : pollTick walletCount s t1 = processTokens walletCount t1 tokens s := by
    unfold pollTick
    rw [hpoll]
  have hfirst := processTokens_success walletCount t1 a tokens s hok hmem hnew
  rw [← h1] at hfirst
  refine ⟨hfirst.1, hfirst.2, ?_, ?_⟩
  · have h2 : actedOn (pollTick walletCount (pollTick walletCount s t1) t2) a =
        actedOn (pollTick walletCount s t1) a := by
      unfold pollTick
      cases t2.latestTokens with
      | none => rfl
      | some tokens2 =>
        exact (processTokens_seen walletCount t2 a tokens2 _ hfirst.1).2
    rw [h2, hfirst.2]
  · intro t hp hens hfail
    unfold pollTick
    rw [hp]
    dsimp only
    unfold processTokens
    rw [if_neg hnew, if_neg (by simp [hens])]
    dsimp only
    rw [if_pos hfail]
    refine ⟨hnew, ?_⟩
    have hcount := actedOn_issue s.seenTokens s.fanOuts a a (buyPromises walletCount t a)
    rw [if_pos rfl] at hcount
    exact hcount

/-- Witness of C11 (amended): two wallets, token `7` bought on the first tick and returned
again on a tick whose buys would fail. -/
theorem seen_after_successful_fanOut_witness :
    7 ∈ (pollTick 2 { seenTokens := [], fanOuts := [] } successTick).seenTokens ∧
      actedOn (pollTick 2 (pollTick 2 { seenTokens := [], fanOuts := [] } successTick)
        failingTick) 7 = 1 := by
  have h := seen_after_successful_fanOut 2 { seenTokens := [], fanOuts := [] } successTick
    failingTick [7] 7 rfl (by decide) (by decide)
    (by intro token _; exact ⟨rfl, fun _ _ => rfl⟩)
  exact ⟨h.1, h.2.2.1⟩


/-- C12, the code at the failing input: for `solAmount = 20000000` the buy instruction of
`bot.mjs` is handed `new BN("20000000" + 20000)`, which is `2000000020000` and not
`20000000 + 20000 = 20020000`; `botsell.mjs` hands over `20000000`, with no margin. -/
theorem solAmountBN_concatenates :
    lamports = 20000000 ∧
      toDecimalString lamports ++ toDecimalString 20000 =
        ['2', '0', '0', '0', '0', '0', '0', '0', '2', '0', '0', '0', '0'] ∧
      Bot.solAmountBN lamports = 2000000020000 ∧
      lamports + 20000 = 20020000 ∧
      BotSell.solAmountBN lamports = 20000000 := by
  decide

/-- C13, the code at the failing input: when the per-account `try` of `sellAllTokens` raises
an error named `TransactionExpiredTimeoutError`, the `catch` writes
`Transaction expired, retrying...` and throws the error again: it fetches no block reference
and submits nothing, so there is no rebuild-and-resubmit cycle; the `catch` of `buyTokens`
likewise only logs and throws the error again. -/
theorem expired_sale_announces_retry_and_rethrows :
    BotSell.sellAllTokensCatch .transactionExpiredTimeoutError =
        { effects := [.consoleError "Transaction expired, retrying..."]
          thrown := some .transactionExpiredTimeoutError } ∧
      submissions (BotSell.sellAllTokensCatch .transactionExpiredTimeoutError).effects = 0 ∧
      blockReferences (BotSell.sellAllTokensCatch .transactionExpiredTimeoutError).effects = 0 ∧
      (Bot.buyTokensCatch .transactionExpiredTimeoutError).thrown =
        some .transactionExpiredTimeoutError ∧
      submissions (Bot.buyTokensCatch .transactionExpiredTimeoutError).effects = 0 ∧
      blockReferences (Bot.buyTokensCatch .transactionExpiredTimeoutError).effects = 0 := by
  decide

/-- C14 as stated fails: with two wallets, on a tick that returns tokens `7` and `8` where
only the second wallet's buy of `7` fails, the tick ends after the fan-out of `7`: no
attempt is issued for `8`, whose buys would both succeed. -/
theorem failed_wallet_stops_the_tick :
    startSniperBot 2 [mixedTick] = { seenTokens := [], fanOuts := [(7, [true, false])] } ∧
      actedOn (startSniperBot 2 [mixedTick]) 8 = 0 ∧
      mixedTick.buyOk 8 0 = true ∧ mixedTick.buyOk 8 1 = true := by
  decide

/-- C14, amended: for every wallet pool and every discovered asset (not seen before, its
associated account ensured), the fan-out starts one `buyTokens` call per wallet and each
call ends as that wallet's attempt ends; the fan-out is awaited as a whole with
`Promise.all`: when one wallet's attempt fails the fan-out fails, the asset is not put in
`seenTokens` and the remaining assets of the same poll tick are not processed; when every
attempt succeeds the asset is put in `seenTokens` and the loop goes on with the remaining
assets. -/
theorem fanOut_awaited_as_a_whole (walletCount : Nat) (t : Tick) (token : Address)
    (rest : List Address) (s : BotState)
    (hnew : token ∉ s.seenTokens) (hens : t.ensureOk token = true) :
    (buyPromises walletCount t token).length = walletCount ∧
      (∀ i, i < walletCount → (buyPromises walletCount t token)[i]? = some (t.buyOk token i)) ∧
      (∀ i, i < walletCount → t.buyOk token i = false →
        promiseAll (buyPromises walletCount t token) = false) ∧
      (promiseAll (buyPromises walletCount t token) = false →
        processTokens walletCount t (token :: rest) s =
          { seenTokens := s.seenTokens
            fanOuts := s.fanOuts ++ [(token, buyPromises walletCount t token)] }) ∧
      (promiseAll (buyPromises walletCount t token) = true →
        processTokens walletCount t (token :: rest) s =
          processTokens walletCount t rest
            { seenTokens := token :: s.seenTokens
              fanOuts := s.fanOuts ++ [(token, buyPromises walletCount t token)] }) := by
  refine ⟨?_, ?_, ?_, ?_, ?_⟩
  · unfold buyPromises
    rw [List.length_map, List.length_range]
  · intro i hi
    unfold buyPromises
    rw [List.getElem?_map, List.getElem?_range hi]
    rfl
  · intro i hi hfail
    unfold promiseAll
    rw [Bool.eq_false_iff]
    intro hall
    rw [List.all_eq_true] at hall
    have hmem : t.buyOk token i ∈ buyPromises walletCount t token :=
      List.mem_map.mpr ⟨i, List.mem_range.mpr hi, rfl⟩
    have := hall _ hmem
    rw [hfail] at this
    cases this
  · intro hfail
    rw [processTokens, if_neg hnew, if_neg (by simp [hens])]
    dsimp only
    rw [if_pos hfail]
  · intro hall
    rw [processTokens, if_neg hnew, if_neg (by simp [hens])]
    dsimp only
    rw [if_neg (by simp [hall])]

/-- Witness of C14 (amended): two wallets, the tick with tokens `7` and `8`, the second
wallet failing on `7`. -/
theorem fanOut_awaited_as_a_whole_witness :
    (buyPromises 2 mixedTick 7).length = 2 ∧
      processTokens 2 mixedTick [7, 8] { seenTokens := [], fanOuts := [] } =
        { seenTokens := [], fanOuts := [] ++ [(7, buyPromises 2 mixedTick 7)] } := by
  have h := fanOut_awaited_as_a_whole 2 mixedTick 7 [8] { seenTokens := [], fanOuts := [] }
    (by decide) rfl
  exact ⟨h.1, h.2.2.2.1 (h.2.2.1 1 (by decide) (by decide))⟩

end SniperBotSol
